import Mathlib

/-!
Verification of the abcp-b24-garage-sync repository.

Shallow embedding of the core logic of the repository:
  * `util.py`               — `slice_by_years`
  * `config.py`             — `BITRIX_FIELD_ENV_MAP`, overwrite configuration
  * `sync_service.py`       — `_build_update_fields`, `_normalize`, `_diff_fields`,
                              `_select_latest_rows_per_user`, `sync_all`
  * `b24_client.py`         — `_tz_from_offset`, `_ensure_datetime_str`,
                              `_ensure_date_str`, `_to_bool_y_n`, `_ensure_numeric`,
                              `_ensure_enum_ids`, `_normalize_fields_for_update`
  * `db.py`                 — `store_payload` (upsert), `save_sync_result`

Python's dynamically typed values are embedded as the inductive type `PyVal`;
Python dicts become association lists with dict-update semantics (`dictSet`,
`dictGet`); functions that can raise return `Except String`.
-/

namespace AbcpB24

/-! ## Generic dictionary model (Python `dict` as an association list) -/

/-- Python dict assignment `d[k] = v`: replace the value of an existing key in
place, otherwise append the new key at the end (insertion order). -/
def dictSet {κ α : Type} [DecidableEq κ] : List (κ × α) → κ → α → List (κ × α)
  | [], k, v => [(k, v)]
  | (k', v') :: d, k, v =>
      if k' = k then (k', v) :: d else (k', v') :: dictSet d k v

/-- Python `d.get(k)`: first binding of the key, if any. -/
def dictGet {κ α : Type} [DecidableEq κ] : List (κ × α) → κ → Option α
  | [], _ => none
  | (k', v') :: d, k => if k' = k then some v' else dictGet d k

/-- The keys of a dict, in insertion order. -/
def dictKeys {κ α : Type} (d : List (κ × α)) : List κ := d.map Prod.fst

/-! ## Python values -/

/-- A scalar Python value as it flows through the sync code: `None`, `str`,
`int`, `float` (modelled by a rational), `bool`, `datetime.datetime` (with an
optional fixed-offset tzinfo, in minutes) and `datetime.date`. -/
inductive PyPrim where
  | none
  | str (s : String)
  | int (n : Int)
  | float (q : Rat)
  | bool (b : Bool)
  | dt (year month day hour minute second : Nat) (tz : Option Int)
  | date (year month day : Nat)
  deriving DecidableEq, Repr

/-- A dynamically typed Python value: a scalar or a list of scalars.  The
values this program handles never nest lists inside lists, so one list level
suffices. -/
inductive PyVal where
  | prim (p : PyPrim)
  | list (xs : List PyPrim)
  deriving DecidableEq, Repr

/-- Shorthand for the Python `None` value. -/
def PyVal.none : PyVal := .prim .none

/-- Shorthand for a Python `str` value. -/
def PyVal.str (s : String) : PyVal := .prim (.str s)

/-- Shorthand for a Python `int` value. -/
def PyVal.int (n : Int) : PyVal := .prim (.int n)

/-- Shorthand for a Python `bool` value. -/
def PyVal.bool (b : Bool) : PyVal := .prim (.bool b)

/-- Shorthand for a Python `float` value. -/
def PyVal.float (q : Rat) : PyVal := .prim (.float q)

/-- Left-pad a numeral with zeroes to the given width. -/
def padNum (width : Nat) (n : Nat) : String :=
  let s := toString n
  if s.length < width then String.mk (List.replicate (width - s.length) '0') ++ s else s

/-- Render a fixed UTC offset (in minutes) the way `datetime.isoformat` does:
`+HH:MM` or `-HH:MM`. -/
def renderOffset (mins : Int) : String :=
  let sign := if mins < 0 then "-" else "+"
  let a := mins.natAbs
  sign ++ padNum 2 (a / 60) ++ ":" ++ padNum 2 (a % 60)

/-- Python `str` of a scalar.  For `float` the exact `repr` of a double is not
modelled (no theorem below relies on it). -/
def pyPrimStr : PyPrim → String
  | .none => "None"
  | .str s => s
  | .int n => toString n
  | .float q => if q.den = 1 then toString q.num ++ ".0" else toString q
  | .bool b => if b then "True" else "False"
  | .dt y mo d h mi s tz =>
      padNum 4 y ++ "-" ++ padNum 2 mo ++ "-" ++ padNum 2 d ++ " " ++
      padNum 2 h ++ ":" ++ padNum 2 mi ++ ":" ++ padNum 2 s ++
      (match tz with | Option.none => "" | some o => renderOffset o)
  | .date y mo d => padNum 4 y ++ "-" ++ padNum 2 mo ++ "-" ++ padNum 2 d

/-- Python `str(v)`.  For `list` a Python-`repr`-like rendering is used
(strings quoted); no theorem below relies on it. -/
def pyStr : PyVal → String
  | .prim p => pyPrimStr p
  | .list xs => "[" ++ String.intercalate ", "
      (xs.map (fun p => match p with
        | .str s => "'" ++ s ++ "'"
        | p => pyPrimStr p)) ++ "]"

/-- The numeric value of a Python scalar number (`int`, `float`, `bool`), if
any. -/
def pyNum? : PyVal → Option Rat
  | .prim (.int n) => some n
  | .prim (.float q) => some q
  | .prim (.bool b) => some (if b then 1 else 0)
  | _ => Option.none

/-- Python `==`: numbers (including `bool`) compare by value across types,
everything else structurally. -/
def pyEq (a b : PyVal) : Bool :=
  match pyNum? a, pyNum? b with
  | some x, some y => decide (x = y)
  | _, _ => decide (a = b)

/-- Python membership test `v in (None, "", 0)` used by `_build_update_fields`
(`sync_service.py:57`); membership uses `==`. -/
def pyMemEmptyTuple (v : PyVal) : Bool :=
  pyEq v .none || pyEq v (.str "") || pyEq v (.int 0)

/-- `json.dumps` of a scalar, modelled without string-escape handling (no
theorem relies on the rendering; `datetime` values are not JSON-serializable
in Python, their rendering here is a placeholder on a dead path). -/
def jsonPrim : PyPrim → String
  | .none => "null"
  | .str s => "\"" ++ s ++ "\""
  | .int n => toString n
  | .float q => if q.den = 1 then toString q.num ++ ".0" else toString q
  | .bool b => if b then "true" else "false"
  | p => pyPrimStr p

/-- `json.dumps(v, ensure_ascii=False)` on the values this program serializes. -/
def jsonDumps : PyVal → String
  | .prim p => jsonPrim p
  | .list xs => "[" ++ String.intercalate ", " (xs.map jsonPrim) ++ "]"

/-- `json.dumps` of a list of strings (used for `fieldsUpdatedJson`). -/
def jsonListStr (codes : List String) : String :=
  "[" ++ String.intercalate ", " (codes.map (fun c => "\"" ++ c ++ "\"")) ++ "]"

/-! ## `util.py` — `slice_by_years` -/

/-- A `datetime.datetime` value as compared by `slice_by_years`
(comparison in Python is lexicographic on the components). -/
structure PyDateTime where
  year : Nat
  month : Nat
  day : Nat
  hour : Nat
  minute : Nat
  second : Nat
  deriving DecidableEq, Repr

/-- Python `<` on naive datetimes: lexicographic on the six components. -/
def dtLt (a b : PyDateTime) : Bool :=
  if a.year ≠ b.year then a.year < b.year
  else if a.month ≠ b.month then a.month < b.month
  else if a.day ≠ b.day then a.day < b.day
  else if a.hour ≠ b.hour then a.hour < b.hour
  else if a.minute ≠ b.minute then a.minute < b.minute
  else a.second < b.second

/-- Python `<=` on naive datetimes. -/
def dtLe (a b : PyDateTime) : Bool := dtLt a b || a = b

/-- `datetime(y, 1, 1, 0, 0, 1)` — the first instant `slice_by_years` uses in a
year. -/
def jan1 (y : Nat) : PyDateTime := ⟨y, 1, 1, 0, 0, 1⟩

/-- `datetime(y, 12, 31, 23, 59, 59)` — the last instant `slice_by_years` uses
in a year. -/
def dec31 (y : Nat) : PyDateTime := ⟨y, 12, 31, 23, 59, 59⟩

/-- The earlier of two datetimes (`if year_end > end: year_end = end`). -/
def dtMin (a b : PyDateTime) : PyDateTime := if dtLt b a then b else a

/-- The later of two datetimes (`if start > cur: cur = start`). -/
def dtMax (a b : PyDateTime) : PyDateTime := if dtLt a b then b else a

/-- The `while cur <= end` loop of `slice_by_years` (`util.py:10`), with fuel;
`slice_by_years` supplies enough fuel for the loop to run to completion, since
`cur.year` grows by one per iteration and the loop stops once `cur > end`. -/
def sliceLoop : Nat → PyDateTime → PyDateTime → List (PyDateTime × PyDateTime)
  | 0, _, _ => []
  | fuel + 1, cur, e =>
      if dtLe cur e then
        (cur, dtMin (dec31 cur.year) e) :: sliceLoop fuel (jan1 (cur.year + 1)) e
      else []

/-- `util.slice_by_years(start, end)`. -/
def slice_by_years (s e : PyDateTime) : List (PyDateTime × PyDateTime) :=
  let cur := if dtLt (jan1 s.year) s then s else jan1 s.year
  sliceLoop (e.year + 1 - cur.year) cur e

/-- The number of slices the specification describes, for a first slice
starting at `c`: one per calendar year from `c.year` up to `e.year`, except
that `e`'s year contributes no slice when `e` precedes `Jan-1 00:00:01` of its
own year. -/
def specSliceCount (c e : PyDateTime) : Nat :=
  if dtLe c e then (if dtLe (jan1 e.year) e then e.year + 1 else e.year) - c.year
  else 0

/-- The slice list as the specification words it: the first slice begins at
`max(start, Jan-1 00:00:01 of start's year)`, each subsequent slice begins at
`Jan-1 00:00:01` of the next year, and each slice ends at `Dec-31 23:59:59` of
its year or at `end`, whichever is earlier. -/
def specSlices (s e : PyDateTime) : List (PyDateTime × PyDateTime) :=
  let c := dtMax (jan1 s.year) s
  (List.range (specSliceCount c e)).map (fun i =>
    (if i = 0 then c else jan1 (c.year + i), dtMin (dec31 (c.year + i)) e))

/-! ## Python string primitives

`str.strip`, `str.lower`, `str.replace` and slicing are modelled over the
character list of the string (Lean's own `String.trim`/`toLower` do not reduce
definitionally, which the concrete evaluations below need). -/

/-- ASCII lower-casing of one character (`str.lower` on the inputs this
program sees). -/
def charLower (c : Char) : Char :=
  if 'A' ≤ c ∧ c ≤ 'Z' then Char.ofNat (c.toNat + 32) else c

/-- Python `s.lower()`. -/
def pyLower (s : String) : String := ⟨s.data.map charLower⟩

/-- Python `s.strip()`: drop whitespace from both ends. -/
def pyStrip (s : String) : String :=
  ⟨((s.data.dropWhile Char.isWhitespace).reverse.dropWhile Char.isWhitespace).reverse⟩

/-- Python `s[:n]`. -/
def pyTake (s : String) (n : Nat) : String := ⟨s.data.take n⟩

/-- Python `s[n:]`. -/
def pyDrop (s : String) (n : Nat) : String := ⟨s.data.drop n⟩

/-- Python `s.replace(",", ".")`. -/
def pyCommaToDot (s : String) : String :=
  ⟨s.data.map (fun c => if c = ',' then '.' else c)⟩

/-! ## `b24_client.py` — regex shapes and value normalization -/

/-- Consume exactly `n` ASCII digits. -/
def chDigits : Nat → List Char → Option (List Char)
  | 0, cs => some cs
  | _ + 1, [] => Option.none
  | n + 1, c :: cs => if c.isDigit then chDigits n cs else Option.none

/-- Consume one given literal character. -/
def chLit (ch : Char) : List Char → Option (List Char)
  | [] => Option.none
  | c :: cs => if c = ch then some cs else Option.none

/-- Consume `\d{4}-\d{2}-\d{2}`. -/
def chDate (cs : List Char) : Option (List Char) :=
  (((chDigits 4 cs).bind (chLit '-')).bind (chDigits 2)).bind (chLit '-') |>.bind (chDigits 2)

/-- Consume `\d{2}:\d{2}:\d{2}`. -/
def chTime (cs : List Char) : Option (List Char) :=
  (((chDigits 2 cs).bind (chLit ':')).bind (chDigits 2)).bind (chLit ':') |>.bind (chDigits 2)

/-- Consume `(Z|[+-]\d{2}:\d{2})`. -/
def chOffset (cs : List Char) : Option (List Char) :=
  match cs with
  | 'Z' :: rest => some rest
  | c :: rest =>
      if c = '+' ∨ c = '-' then ((chDigits 2 rest).bind (chLit ':')).bind (chDigits 2)
      else Option.none
  | [] => Option.none

/-- Consume a `[ T]` separator. -/
def chSep (cs : List Char) : Option (List Char) :=
  match cs with
  | c :: rest => if c = ' ' ∨ c = 'T' then some rest else Option.none
  | [] => Option.none

/-- `re.fullmatch(r"\d{4}-\d{2}-\d{2}", s)` (`b24_client.py:94,108`). -/
def isDateOnlyShape (s : String) : Bool := chDate s.data = some []

/-- `re.fullmatch(r"\d{4}-\d{2}-\d{2}T\d{2}:\d{2}:\d{2}(Z|[+-]\d{2}:\d{2})", s)`
(`b24_client.py:89`). -/
def isDatetimeOffsetShape (s : String) : Bool :=
  (((chDate s.data).bind (chLit 'T')).bind chTime).bind chOffset = some []

/-- `re.fullmatch(r"(\d{4}-\d{2}-\d{2})[ T](\d{2}:\d{2}:\d{2})", s)`
(`b24_client.py:91`). -/
def isDatetimeSepShape (s : String) : Bool :=
  ((chDate s.data).bind chSep).bind chTime = some []

/-- `re.match(r"(\d{4}-\d{2}-\d{2})[ T]\d{2}:\d{2}:\d{2}(Z|[+-]\d{2}:\d{2})?$", s)`
(`b24_client.py:110`). -/
def isDatetimeOptOffsetShape (s : String) : Bool :=
  match ((chDate s.data).bind chSep).bind chTime with
  | some [] => true
  | some rest => chOffset rest = some []
  | Option.none => false

/-- Numeric value of a run of ASCII digits. -/
def digitsVal (ds : List Char) : Nat :=
  ds.foldl (fun a d => a * 10 + (d.toNat - 48)) 0

/-- `re.fullmatch(r"([+-])(\d{2}):?(\d{2})", s)` of `_tz_from_offset`, returning
the signed offset in minutes when the pattern matches (`b24_client.py:68`). -/
def parseOffset? (s : String) : Option Int :=
  match s.data with
  | sign :: h1 :: h2 :: rest =>
      if (sign = '+' ∨ sign = '-') ∧ h1.isDigit ∧ h2.isDigit then
        let rest2 := match rest with | ':' :: r => r | r => r
        match rest2 with
        | [m1, m2] =>
            if m1.isDigit ∧ m2.isDigit then
              let d : Int := (digitsVal [h1, h2]) * 60 + digitsVal [m1, m2]
              some (if sign = '-' then -d else d)
            else Option.none
        | _ => Option.none
      else Option.none
  | _ => Option.none

/-- `_tz_from_offset(offset)` (`b24_client.py:66`): parse a `±HH:MM` offset,
falling back to `_FALLBACK_TZ = timezone(timedelta(hours=3))` (+03:00, i.e.
180 minutes) when the pattern does not match.  `cfgOffset` is the module-level
`DEFAULT_TZ_OFFSET = B24_TZ_OFFSET`.  The result is the offset in minutes;
Python's `timezone()` would raise for offsets of 24 hours or more, a path no
claim concerns and which is not modelled. -/
def _tz_from_offset (cfgOffset : String) (offset : Option String) : Int :=
  let s0 := offset.getD ""
  let s1 := if s0 = "" then cfgOffset else s0
  let s := pyStrip (if s1 = "" then "+03:00" else s1)
  match parseOffset? s with
  | some mins => mins
  | Option.none => 180

/-- `datetime.isoformat(timespec="seconds")` of an (aware, when `tz` is given)
datetime. -/
def isoDateTime (y mo d h mi s : Nat) (tz : Option Int) : String :=
  padNum 4 y ++ "-" ++ padNum 2 mo ++ "-" ++ padNum 2 d ++ "T" ++
  padNum 2 h ++ ":" ++ padNum 2 mi ++ ":" ++ padNum 2 s ++
  (match tz with | some o => renderOffset o | Option.none => "")

/-- `_ensure_datetime_str(v, fallback_offset)` (`b24_client.py:78`). -/
def _ensure_datetime_str (cfgOffset : String) (v : PyVal) (fallback_offset : String) : String :=
  if v = .none ∨ v = .str "" then ""
  else match v with
  | .prim (.dt y mo d h mi s tz) =>
      let o := match tz with
        | some o => o
        | Option.none => _tz_from_offset cfgOffset (some fallback_offset)
      isoDateTime y mo d h mi s (some o)
  | .prim (.date y mo d) =>
      isoDateTime y mo d 0 0 0 (some (_tz_from_offset cfgOffset (some fallback_offset)))
  | .prim (.str s0) =>
      let s := pyStrip s0
      if isDatetimeOffsetShape s then s
      else if isDatetimeSepShape s then pyTake s 10 ++ "T" ++ pyDrop s 11 ++ fallback_offset
      else if isDateOnlyShape s then s ++ "T00:00:00" ++ fallback_offset
      else s
  | v => pyStr v

/-- `_ensure_date_str(v)` (`b24_client.py:99`). -/
def _ensure_date_str (v : PyVal) : String :=
  if v = .none ∨ v = .str "" then ""
  else match v with
  | .prim (.dt y mo d _ _ _ _) => padNum 4 y ++ "-" ++ padNum 2 mo ++ "-" ++ padNum 2 d
  | .prim (.date y mo d) => padNum 4 y ++ "-" ++ padNum 2 mo ++ "-" ++ padNum 2 d
  | .prim (.str s0) =>
      let s := pyStrip s0
      if isDateOnlyShape s then s
      else if isDatetimeOptOffsetShape s then pyTake s 10
      else s
  | v => pyStr v

/-- `_to_bool_y_n(v)` (`b24_client.py:116`).  In Python `bool` is a subclass of
`int`, so actual booleans are caught by the numeric branch with the same
result as the dedicated `bool` branch. -/
def _to_bool_y_n (v : PyVal) : String :=
  match v with
  | .prim (.str s0) =>
      let s := pyLower (pyStrip s0)
      if ["y", "yes", "true", "1"].contains s then "Y"
      else if ["n", "no", "false", "0"].contains s then "N"
      else "Y"
  | .prim (.int n) => if n ≠ 0 then "Y" else "N"
  | .prim (.float q) => if q ≠ 0 then "Y" else "N"
  | .prim (.bool b) => if b then "Y" else "N"
  | _ => "Y"

/-- Python `int(s)` on a string (sign and digits; exotic forms such as
underscore separators are not modelled). -/
def pyIntParse? (s : String) : Option Int :=
  match s.data with
  | [] => Option.none
  | c :: cs =>
      let neg := c = '-'
      let ds := if c = '-' ∨ c = '+' then cs else c :: cs
      if ds ≠ [] ∧ ds.all Char.isDigit then
        some (if neg then -(digitsVal ds : Int) else (digitsVal ds : Int))
      else Option.none

/-- Python `float(s)` on a string (sign, digits, optional fractional part;
exponents are not modelled). -/
def pyFloatParse? (s : String) : Option Rat :=
  match s.data with
  | [] => Option.none
  | c :: cs =>
      let neg := c = '-'
      let rest := if c = '-' ∨ c = '+' then cs else c :: cs
      let ip := rest.takeWhile Char.isDigit
      let q : Option Rat :=
        match rest.drop ip.length with
        | [] => if ip ≠ [] then some (digitsVal ip) else Option.none
        | '.' :: fp =>
            if fp.all Char.isDigit ∧ (ip ≠ [] ∨ fp ≠ []) then
              some ((digitsVal ip : Rat) + (digitsVal fp : Rat) / ((10 : Rat) ^ fp.length))
            else Option.none
        | _ => Option.none
      q.map (fun x => if neg then -x else x)

/-- `_ensure_numeric(utype, v)` (`b24_client.py:187`): best-effort coercion to
`int`/`float`; a failed coercion returns the value unchanged. -/
def _ensure_numeric (utype : String) (v : PyVal) : PyVal :=
  if v = .none ∨ v = .str "" then .str ""
  else if utype = "integer" then
    match v with
    | .prim (.bool b) => .int (if b then 1 else 0)
    | _ => match pyIntParse? (pyStrip (pyStr v)) with
           | some n => .int n
           | Option.none => v
  else if utype = "double" then
    match v with
    | .prim (.bool b) => .float (if b then 1 else 0)
    | _ => match pyFloatParse? (pyCommaToDot (pyStrip (pyStr v))) with
           | some q => .float q
           | Option.none => v
  else v

/-- Python `int(x)` on a dynamic value, `Option.none` when it would raise.
(`int` of a float truncates toward zero; that path is dead for the enum ids
this program sees.) -/
def pyInt? : PyVal → Option Int
  | .prim (.int n) => some n
  | .prim (.bool b) => some (if b then 1 else 0)
  | .prim (.str s) => pyIntParse? (pyStrip s)
  | .prim (.float q) => some (Rat.floor q + (if Rat.floor q < 0 ∧ ¬q.den = 1 then 1 else 0))
  | _ => Option.none

/-- Metadata of one Bitrix24 user field, as consumed by
`_normalize_fields_for_update`.  `USER_TYPE_ID` holds
`meta.get("USER_TYPE_ID") or ""`; `MULTIPLE` the raw `meta.get("MULTIPLE")`;
`LIST` the enumeration items as `(ID, VALUE or "", XML_ID or "")`.  A missing
field is represented by `{}`, i.e. `⟨"", PyVal.none, []⟩`. -/
structure UFMeta where
  USER_TYPE_ID : String
  MULTIPLE : PyVal
  LIST : List (PyVal × String × String)
  deriving DecidableEq, Repr

/-- The metadata of an absent field (`_get_uf_meta_by_code` returning `{}`). -/
def UFMeta.empty : UFMeta := ⟨"", PyVal.none, []⟩

/-- `_enum_map_from_meta(meta)` (`b24_client.py:203`): label/alias (lowercased,
stripped) to numeric choice id; items with a non-integer `ID` are skipped. -/
def _enum_map_from_meta (meta : UFMeta) : List (String × Int) :=
  meta.LIST.foldl (fun m it =>
    match pyInt? it.1 with
    | Option.none => m
    | some i =>
        let v := pyLower (pyStrip it.2.1)
        let x := pyLower (pyStrip it.2.2)
        let m := if v ≠ "" then dictSet m v i else m
        if x ≠ "" then dictSet m x i else m) []

/-- The inner `_one(x)` of `_ensure_enum_ids` on a scalar (`b24_client.py:226`). -/
def enumOnePrim (mapping : List (String × Int)) (x : PyPrim) : PyPrim :=
  if x = .none ∨ x = .str "" then .str ""
  else
    let s := pyStrip (pyPrimStr x)
    if s.data ≠ [] ∧ s.data.all Char.isDigit then .int (digitsVal s.data)
    else match dictGet mapping (pyLower s) with
      | some i => .int i
      | Option.none => x

/-- `_ensure_enum_ids(code, v, meta)` (`b24_client.py:220`).  (The `code`
argument of the Python function is only used for logging.) -/
def _ensure_enum_ids (v : PyVal) (meta : UFMeta) : PyVal :=
  if v = .str "" then .str ""
  else
    let mapping := _enum_map_from_meta meta
    let is_multiple :=
      pyEq meta.MULTIPLE (.str "Y") || pyEq meta.MULTIPLE (.bool true) ||
      pyEq meta.MULTIPLE (.str "true") || pyEq meta.MULTIPLE (.str "True") ||
      pyEq meta.MULTIPLE (.int 1)
    if is_multiple then
      match v with
      | .list xs => .list (xs.map (enumOnePrim mapping))
      | .prim p => .list [enumOnePrim mapping p]
    else
      match v with
      | .prim p => .prim (enumOnePrim mapping p)
      | .list xs =>
          -- `_one` applied to a whole list: its `str()` form is matched against
          -- the digit pattern and the mapping like any other value.
          let s := pyStrip (pyStr (.list xs))
          if s.data ≠ [] ∧ s.data.all Char.isDigit then .int (digitsVal s.data)
          else match dictGet mapping (pyLower s) with
            | some i => .int i
            | Option.none => .list xs

/-- `_normalize_fields_for_update(fields)` (`b24_client.py:248`).  The
network-backed metadata lookup `_get_uf_meta_by_code` is abstracted as the
function `metaMap`; `cfgOffset` is the configured `DEFAULT_TZ_OFFSET`. -/
def _normalize_fields_for_update (metaMap : String → UFMeta) (cfgOffset : String)
    (fields : List (String × PyVal)) : List (String × PyVal) :=
  fields.map (fun kv =>
    let k := kv.1
    let v := kv.2
    if v = PyVal.none then (k, PyVal.str "")
    else
      let meta := metaMap k
      let utype := pyLower meta.USER_TYPE_ID
      if utype = "datetime" then (k, .str (_ensure_datetime_str cfgOffset v cfgOffset))
      else if utype = "date" then (k, .str (_ensure_date_str v))
      else if utype = "boolean" then (k, .str (_to_bool_y_n v))
      else if utype = "integer" ∨ utype = "double" then (k, _ensure_numeric utype v)
      else if utype = "enumeration" then (k, _ensure_enum_ids v meta)
      else (k, v))

/-! ## `config.py` and `sync_service.py` — field mapping and diff -/

/-- The argument `_build_update_fields` passes to `os.getenv`: in `config.py`
the values of `BITRIX_FIELD_ENV_MAP` are *tuples* of env-variable names. -/
inductive EnvArg where
  | str (s : String)
  | tuple (names : List String)
  deriving DecidableEq, Repr

/-- `config.BITRIX_FIELD_ENV_MAP` (`config.py:76`): ABCP attribute name to the
tuple of env names holding the Bitrix24 UF codes. -/
def BITRIX_FIELD_ENV_MAP : List (String × EnvArg) :=
  [ ("id",              .tuple ["UF_B24_DEAL_GARAGE_ID"]),
    ("userId",          .tuple ["UF_B24_DEAL_GARAGE_USER_ID", "UF_B24_DEAL_ABCP_USER_ID"]),
    ("name",            .tuple ["UF_B24_DEAL_GARAGE_NAME"]),
    ("comment",         .tuple ["UF_B24_DEAL_GARAGE_COMMENT"]),
    ("year",            .tuple ["UF_B24_DEAL_GARAGE_YEAR"]),
    ("vin",             .tuple ["UF_B24_DEAL_GARAGE_VIN"]),
    ("frame",           .tuple ["UF_B24_DEAL_GARAGE_FRAME"]),
    ("mileage",         .tuple ["UF_B24_DEAL_GARAGE_MILEAGE"]),
    ("manufacturerId",  .tuple ["UF_B24_DEAL_GARAGE_MANUFACTURER_ID"]),
    ("manufacturer",    .tuple ["UF_B24_DEAL_GARAGE_MANUFACTURER"]),
    ("modelId",         .tuple ["UF_B24_DEAL_GARAGE_MODEL_ID"]),
    ("model",           .tuple ["UF_B24_DEAL_GARAGE_MODEL"]),
    ("modificationId",  .tuple ["UF_B24_DEAL_GARAGE_MODIFICATION_ID"]),
    ("modification",    .tuple ["UF_B24_DEAL_GARAGE_MODIFICATION"]),
    ("dateUpdated",     .tuple ["UF_B24_DEAL_GARAGE_DATE_UPDATED"]),
    ("vehicleRegPlate", .tuple ["UF_B24_DEAL_GARAGE_VEHICLE_REG_PLATE"]) ]

/-- `os.getenv(key, "")`: CPython requires the key to be a `str` and raises
`TypeError` for any other type (for a tuple: `str expected, not tuple`);
`Mapping.get` only swallows `KeyError`, so the `TypeError` propagates. -/
def os_getenv (env : String → Option String) : EnvArg → Except String String
  | .str s => .ok ((env s).getD "")
  | .tuple _ => .error "TypeError: str expected, not tuple"

/-- The overwrite configuration: `SYNC_OVERWRITE_FIELDS` (per-attribute
override) and `SYNC_OVERWRITE_DEFAULT` (`config.py:105`). -/
structure OverwriteCfg where
  fields : List (String × Bool)
  dflt : Bool
  deriving Repr

/-- `_overwrite_for_field(name)` (`sync_service.py:35`):
`SYNC_OVERWRITE_FIELDS.get(name, SYNC_OVERWRITE_DEFAULT)`. -/
def _overwrite_for_field (cfg : OverwriteCfg) (name : String) : Bool :=
  (dictGet cfg.fields name).getD cfg.dflt

/-- One row of the `garage` table (`db.py:48`).  `userId` and `dateUpdated`
are `NOT NULL` columns; the remaining descriptive columns may hold any SQLite
value. -/
structure GarageRow where
  id : Int
  userId : Int
  name : PyVal
  comment : PyVal
  year : PyVal
  vin : PyVal
  frame : PyVal
  mileage : PyVal
  manufacturerId : PyVal
  manufacturer : PyVal
  modelId : PyVal
  model : PyVal
  modificationId : PyVal
  modification : PyVal
  dateUpdated : String
  vehicleRegPlate : PyVal
  rawJson : String
  deriving DecidableEq, Repr

/-- `row[key]` on a `sqlite3.Row` of the `garage` table, for the keys
`_build_update_fields` uses. -/
def GarageRow.get (r : GarageRow) : String → PyVal
  | "id" => .int r.id
  | "userId" => .int r.userId
  | "name" => r.name
  | "comment" => r.comment
  | "year" => r.year
  | "vin" => r.vin
  | "frame" => r.frame
  | "mileage" => r.mileage
  | "manufacturerId" => r.manufacturerId
  | "manufacturer" => r.manufacturer
  | "modelId" => r.modelId
  | "model" => r.model
  | "modificationId" => r.modificationId
  | "modification" => r.modification
  | "dateUpdated" => .str r.dateUpdated
  | "vehicleRegPlate" => r.vehicleRegPlate
  | _ => PyVal.none

/-- The loop body of `_build_update_fields` (`sync_service.py:47`), folded over
the entries of `BITRIX_FIELD_ENV_MAP`.  An uncaught exception from `os.getenv`
aborts the whole call. -/
def buildFieldsGo (env : String → Option String) (cfg : OverwriteCfg) (row : GarageRow) :
    List (String × EnvArg) → List (String × String) → Except String (List (String × String))
  | [], acc => .ok acc
  | (abcpKey, envName) :: rest, acc =>
      match os_getenv env envName with
      | .error e => .error e
      | .ok ufCode =>
          if ufCode = "" then buildFieldsGo env cfg row rest acc
          else
            let value := row.get abcpKey
            let allow := _overwrite_for_field cfg abcpKey
            if ¬allow ∧ pyMemEmptyTuple value then buildFieldsGo env cfg row rest acc
            else
              let value := match value with
                | .list xs => PyVal.str (jsonDumps (.list xs))
                | v => v
              let prepared := if value = PyVal.none then "" else pyStr value
              buildFieldsGo env cfg row rest (dictSet acc ufCode prepared)

/-- `_build_update_fields(row)` (`sync_service.py:41`): build the
`{UF_CODE: value}` dict for one garage row.  `env` abstracts `os.environ`. -/
def _build_update_fields (env : String → Option String) (cfg : OverwriteCfg)
    (row : GarageRow) : Except String (List (String × String)) :=
  buildFieldsGo env cfg row BITRIX_FIELD_ENV_MAP []

/-- `_normalize(v)` (`sync_service.py:81`): `None` and `""` coincide, all
other values compare by their `str` form. -/
def _normalize (v : PyVal) : String :=
  if v = PyVal.none then "" else pyStr v

/-- The comparison of one candidate entry against the current values
(`cur_n != new_n` in `_diff_fields`; `current.get(code)` is `None` for a
missing key). -/
def diffKeep (current : List (String × PyVal)) (kv : String × PyVal) : Bool :=
  _normalize ((dictGet current kv.1).getD PyVal.none) ≠ _normalize kv.2

/-- `_diff_fields(current, new_fields)` (`sync_service.py:91`): the entries of
`new_fields` whose normalized value differs from the normalized current value
under the same key. -/
def _diff_fields (current : List (String × PyVal)) (newFields : List (String × PyVal)) :
    List (String × PyVal) :=
  newFields.filter (diffKeep current)

/-! ## `sync_service.py` — `_select_latest_rows_per_user` -/

/-- Modelled from SQLite's built-in `datetime(X)` function, restricted to the
time-string shapes this repository stores in `dateUpdated`: a well-formed
`YYYY-MM-DD HH:MM:SS` string is returned unchanged, a bare `YYYY-MM-DD` gains
`00:00:00`, anything else yields SQL `NULL` (`Option.none`).  On these shapes
SQLite's text comparison (used by `MAX` and the join) is the lexicographic
comparison of the returned strings. -/
def sqliteDatetime? (s : String) : Option String :=
  if isDatetimeSepShape s ∧ s.data.get? 10 = some ' ' then some s
  else if isDateOnlyShape s then some (s ++ " 00:00:00")
  else Option.none

/-- SQLite `BINARY` collation on text: byte-wise (here character-wise)
lexicographic comparison. -/
def sqliteTextLt (a b : String) : Bool :=
  go a.data b.data
where
  go : List Char → List Char → Bool
  | [], [] => false
  | [], _ :: _ => true
  | _ :: _, [] => false
  | a :: as, b :: bs =>
      if a.toNat < b.toNat then true
      else if b.toNat < a.toNat then false
      else go as bs

/-- SQL `MAX` over the non-NULL `datetime(dateUpdated)` values of one user's
rows (text comparison). -/
def maxDateFor (rows : List GarageRow) (u : Int) : Option String :=
  (rows.filterMap (fun h => if h.userId = u then sqliteDatetime? h.dateUpdated else Option.none)).foldl
    (fun acc d => match acc with
      | Option.none => some d
      | some m => some (if sqliteTextLt m d then d else m))
    Option.none

/-- Stable insertion into a list sorted by ascending `userId` (the modelled
`ORDER BY g.userId ASC`; the relative order of rows with equal `userId` is
unspecified by SQL, the model keeps table order). -/
def insertByUserId (x : GarageRow) : List GarageRow → List GarageRow
  | [] => [x]
  | h :: t => if h.userId < x.userId then h :: insertByUserId x t else x :: h :: t

/-- Stable sort by ascending `userId`. -/
def sortByUserId : List GarageRow → List GarageRow
  | [] => []
  | x :: t => insertByUserId x (sortByUserId t)

/-- The join condition of the no-filter query (`sync_service.py:130`): a row
qualifies when its own `datetime(dateUpdated)` is non-NULL and equal to its
user's `MAX(datetime(dateUpdated))`. -/
def latestQualifies (rows : List GarageRow) (g : GarageRow) : Bool :=
  match sqliteDatetime? g.dateUpdated, maxDateFor rows g.userId with
  | some d, some m => d = m
  | _, _ => false

/-- The no-filter branch of `_select_latest_rows_per_user`
(`sync_service.py:127`): join each garage row against its user's
`MAX(datetime(dateUpdated))`, ordered by `userId`. -/
def selectLatestAll (rows : List GarageRow) : List GarageRow :=
  sortByUserId (rows.filter (latestQualifies rows))

/-- The single-user branch of `_select_latest_rows_per_user`
(`sync_service.py:116`): `ORDER BY datetime(dateUpdated) DESC LIMIT 1`.  Ties
and the all-NULL ordering are unspecified by SQL; the model takes the first
qualifying row in table order. -/
def selectLatestSingle (rows : List GarageRow) (u : Int) : List GarageRow :=
  let mine := rows.filter (fun g => g.userId = u)
  match maxDateFor rows u with
  | some m => (mine.filter (fun g => sqliteDatetime? g.dateUpdated = some m)).take 1
  | Option.none => mine.take 1

/-- `_select_latest_rows_per_user(c, only_user)` (`sync_service.py:110`).
Python's `if only_user:` is a truthiness test, so a filter of `0` behaves like
no filter. -/
def _select_latest_rows_per_user (rows : List GarageRow) : Option Int → List GarageRow
  | some u => if u = 0 then selectLatestAll rows else selectLatestSingle rows u
  | Option.none => selectLatestAll rows

/-! ## `db.py` — `store_payload` and `save_sync_result` -/

/-- One car entry of the ABCP payload, as a loosely-typed dict.  `id` is the
natural key; the attributes `store_payload` passes through `setdefault` are
optional (absent key = `Option.none`), the remaining attributes are the keys
the upsert SQL always reads.  `userId` (when present) and `dateUpdated` carry
the types the `NOT NULL` integer/text columns require. -/
structure Car where
  id : Int
  userId : Option Int
  name : Option PyVal
  comment : Option PyVal
  frame : Option PyVal
  vehicleRegPlate : Option PyVal
  mileage : Option PyVal
  year : Option PyVal
  vin : PyVal
  manufacturerId : PyVal
  manufacturer : PyVal
  modelId : PyVal
  model : PyVal
  modificationId : PyVal
  modification : PyVal
  dateUpdated : String
  deriving DecidableEq, Repr

/-- `json.dumps(car, ensure_ascii=False)`: only its determinism matters to any
theorem below, so the raw payload is modelled by an injective rendering of the
car. -/
def carJson (car : Car) : String := toString (repr car)

/-- The parameter dict `store_payload` binds into `UPSERT_SQL`
(`db.py:183`): the car's fields after the `setdefault` calls, plus
`raw_json`. -/
def prepareRow (uid : Option Int) (car : Car) : GarageRow :=
  { id := car.id
    userId := car.userId.getD (uid.getD 0)
    name := car.name.getD (.str "")
    comment := car.comment.getD (.str "")
    year := car.year.getD (.int 0)
    vin := car.vin
    frame := car.frame.getD (.str "")
    mileage := car.mileage.getD (.int 0)
    manufacturerId := car.manufacturerId
    manufacturer := car.manufacturer
    modelId := car.modelId
    model := car.model
    modificationId := car.modificationId
    modification := car.modification
    dateUpdated := car.dateUpdated
    vehicleRegPlate := car.vehicleRegPlate.getD (.str "")
    rawJson := carJson car }

/-- The `garage` table, keyed by the `id` primary key. -/
def GarageTable : Type := List (Int × GarageRow)

/-- The payload entries in iteration order, each car paired with its user's
parsed id (`int(user_id_str)`, `Option.none` when unparsable; `cars or []`
turns a `null` list into an empty one). -/
def flattenPayload (payload : List (String × Option (List Car))) : List (Option Int × Car) :=
  payload.flatMap (fun ucs => (ucs.2.getD []).map (fun car => (pyIntParse? ucs.1, car)))

/-- One `c.execute(UPSERT_SQL, params)` (`db.py:216`): `INSERT ... ON
CONFLICT(id) DO UPDATE SET ...` replaces every column of the row with that
`id`, or inserts a new row. -/
def upsertCar (t : GarageTable) (uc : Option Int × Car) : GarageTable :=
  dictSet t uc.2.id (prepareRow uc.1 uc.2)

/-- `store_payload(payload)` (`db.py:160`): upsert every car of every user,
returning the new table and the number of rows upserted. -/
def store_payload (t : GarageTable) (payload : List (String × Option (List Car))) :
    GarageTable × Nat :=
  ((flattenPayload payload).foldl upsertCar t, (flattenPayload payload).length)

/-- One row of `sync_status` (`db.py:71`), keyed by `userId`. -/
structure StatusRow where
  dealId : Option Int
  sourceGarageId : Option Int
  sourceDateUpdated : Option String
  lastSyncedAt : String
  lastResult : String
  fieldsUpdatedCount : Nat
  fieldsUpdatedJson : String
  lastError : Option String
  deriving DecidableEq, Repr

/-- One row of `sync_audit` (`db.py:85`). -/
structure AuditRow where
  userId : Int
  dealId : Option Int
  sourceGarageId : Option Int
  sourceDateUpdated : Option String
  result : String
  fieldsUpdatedCount : Nat
  fieldsUpdatedJson : String
  error : Option String
  createdAt : String
  deriving DecidableEq, Repr

/-- The sync bookkeeping tables. -/
structure SyncDb where
  status : List (Int × StatusRow)
  audit : List AuditRow
  deriving DecidableEq, Repr

/-- Python `error or None`: an empty error string is stored as `NULL`. -/
def orNone (e : Option String) : Option String :=
  match e with
  | some "" => Option.none
  | e => e

/-- `save_sync_result(...)` (`db.py:234`): append one `sync_audit` row and
upsert the `sync_status` row of the user.  `now` abstracts `_now_iso()`. -/
def save_sync_result (now : String) (db : SyncDb) (userId : Int) (dealId : Option Int)
    (sourceGarageId : Option Int) (sourceDateUpdated : Option String) (result : String)
    (updatedFieldCodes : Option (List String)) (error : Option String) : SyncDb :=
  let codes := updatedFieldCodes.getD []
  { audit := db.audit ++
      [{ userId := userId, dealId := dealId, sourceGarageId := sourceGarageId,
         sourceDateUpdated := sourceDateUpdated, result := result,
         fieldsUpdatedCount := codes.length, fieldsUpdatedJson := jsonListStr codes,
         error := orNone error, createdAt := now }]
    status := dictSet db.status userId
      { dealId := dealId, sourceGarageId := sourceGarageId,
        sourceDateUpdated := sourceDateUpdated, lastSyncedAt := now,
        lastResult := result, fieldsUpdatedCount := codes.length,
        fieldsUpdatedJson := jsonListStr codes, lastError := orNone error } }

/-! ## `sync_service.py` — `sync_all` -/

/-- A Bitrix24 deal as far as `sync_all` reads it: its `ID`. -/
structure Deal where
  ID : Int
  deriving DecidableEq, Repr

/-- The Bitrix24 client as `sync_all` sees it: `find_deal_by_user`,
`get_deal_fields` and `update_deal_fields`, each able to raise
(`Except.error`).  `update_deal_fields` returns its verification boolean,
which `sync_all` ignores. -/
structure B24Client where
  find_deal_by_user : Int → Except String (Option Deal)
  get_deal_fields : Int → List String → Except String (List (String × PyVal))
  update_deal_fields : Int → List (String × PyVal) → Except String Bool

/-- The per-row body of the `sync_all` loop (`sync_service.py:161`), threading
the counters `(ok, skipped, errors)` and the bookkeeping tables.  Exceptions
of `find_deal_by_user` and `_build_update_fields` are uncaught in the source
and abort the whole run; `get_deal_fields` and `update_deal_fields` failures
are caught per row. -/
def syncLoop (b24 : B24Client) (env : String → Option String) (cfg : OverwriteCfg)
    (now : String) : List GarageRow → SyncDb → Nat → Nat → Nat →
    Except String ((Nat × Nat × Nat) × SyncDb)
  | [], db, ok, skipped, errors => .ok ((ok, skipped, errors), db)
  | row :: rest, db, ok, skipped, errors =>
      let uid := row.userId
      if uid = 0 then
        -- `if not uid:` — row without a usable userId
        let db := save_sync_result now db 0 Option.none (some row.id) (some row.dateUpdated)
          "skipped" Option.none (some "row without userId")
        syncLoop b24 env cfg now rest db ok (skipped + 1) errors
      else
        match b24.find_deal_by_user uid with
        | .error e => .error e
        | .ok Option.none =>
            let db := save_sync_result now db uid Option.none (some row.id)
              (some row.dateUpdated) "skipped" Option.none (some "deal not found")
            syncLoop b24 env cfg now rest db ok (skipped + 1) errors
        | .ok (some deal) =>
            match _build_update_fields env cfg row with
            | .error e => .error e
            | .ok newFields =>
                let ufCodes := newFields.map Prod.fst
                match b24.get_deal_fields deal.ID ufCodes with
                | .error e =>
                    let db := save_sync_result now db uid (some deal.ID) (some row.id)
                      (some row.dateUpdated) "error" (some ufCodes)
                      (some ("get_deal_fields failed: " ++ e))
                    syncLoop b24 env cfg now rest db ok skipped (errors + 1)
                | .ok current =>
                    let diff := _diff_fields current
                      (newFields.map (fun kv => (kv.1, PyVal.str kv.2)))
                    if diff = [] then
                      let db := save_sync_result now db uid (some deal.ID) (some row.id)
                        (some row.dateUpdated) "skipped" (some []) Option.none
                      syncLoop b24 env cfg now rest db ok (skipped + 1) errors
                    else
                      match b24.update_deal_fields deal.ID diff with
                      | .ok _ =>
                          let db := save_sync_result now db uid (some deal.ID) (some row.id)
                            (some row.dateUpdated) "updated" (some (diff.map Prod.fst))
                            Option.none
                          syncLoop b24 env cfg now rest db (ok + 1) skipped errors
                      | .error e =>
                          let db := save_sync_result now db uid (some deal.ID) (some row.id)
                            (some row.dateUpdated) "error" (some (diff.map Prod.fst)) (some e)
                          syncLoop b24 env cfg now rest db ok skipped (errors + 1)

/-- `sync_all(user_id)` (`sync_service.py:144`): select the latest row per
user, reconcile each into its deal, record every outcome, and return
`(updated, skipped, errors)` together with the bookkeeping tables. -/
def sync_all (b24 : B24Client) (env : String → Option String) (cfg : OverwriteCfg)
    (now : String) (garage : List GarageRow) (userId : Option Int) (db : SyncDb) :
    Except String ((Nat × Nat × Nat) × SyncDb) :=
  syncLoop b24 env cfg now (_select_latest_rows_per_user garage userId) db 0 0 0

/-! ## Concrete fixtures used by counterexamples and witnesses -/

/-- A garage row with every nullable column `NULL`. -/
def blankRow (i : Int) (uid : Int) (dateUpdated : String) : GarageRow :=
  { id := i, userId := uid, name := PyVal.none, comment := PyVal.none, year := PyVal.none,
    vin := PyVal.none, frame := PyVal.none, mileage := PyVal.none,
    manufacturerId := PyVal.none, manufacturer := PyVal.none, modelId := PyVal.none,
    model := PyVal.none, modificationId := PyVal.none, modification := PyVal.none,
    dateUpdated := dateUpdated, vehicleRegPlate := PyVal.none, rawJson := "" }

/-- Two rows of one user with the same `dateUpdated` (a timestamp tie). -/
def tieRowA : GarageRow := blankRow 1 5 "2024-01-01 10:00:00"

/-- Second row of the tie. -/
def tieRowB : GarageRow := blankRow 2 5 "2024-01-01 10:00:00"

/-- Three rows of one user at strictly increasing timestamps T1 < T2 < T3. -/
def rowT1 : GarageRow := blankRow 1 7 "2024-01-01 10:00:00"

/-- The T2 row. -/
def rowT2 : GarageRow := blankRow 2 7 "2024-03-01 10:00:00"

/-- The T3 row. -/
def rowT3 : GarageRow := blankRow 3 7 "2024-05-01 10:00:00"

/-- The environment of the repository's own unit test
(`tests/test_sync_service.py`): every mapped env name resolves to a UF code. -/
def testEnv : String → Option String
  | "UF_B24_DEAL_GARAGE_ID" => some "UF_CODE_ID"
  | "UF_B24_DEAL_GARAGE_USER_ID" => some "UF_CODE_USER_1"
  | "UF_B24_DEAL_ABCP_USER_ID" => some "UF_CODE_USER_2"
  | "UF_B24_DEAL_GARAGE_NAME" => some "UF_CODE_NAME"
  | "UF_B24_DEAL_GARAGE_COMMENT" => some "UF_CODE_COMMENT"
  | "UF_B24_DEAL_GARAGE_YEAR" => some "UF_CODE_YEAR"
  | "UF_B24_DEAL_GARAGE_VIN" => some "UF_CODE_VIN"
  | "UF_B24_DEAL_GARAGE_FRAME" => some "UF_CODE_FRAME"
  | "UF_B24_DEAL_GARAGE_MILEAGE" => some "UF_CODE_MILEAGE"
  | "UF_B24_DEAL_GARAGE_MANUFACTURER_ID" => some "UF_CODE_MANU_ID"
  | "UF_B24_DEAL_GARAGE_MANUFACTURER" => some "UF_CODE_MANU"
  | "UF_B24_DEAL_GARAGE_MODEL_ID" => some "UF_CODE_MODEL_ID"
  | "UF_B24_DEAL_GARAGE_MODEL" => some "UF_CODE_MODEL"
  | "UF_B24_DEAL_GARAGE_MODIFICATION_ID" => some "UF_CODE_MOD_ID"
  | "UF_B24_DEAL_GARAGE_MODIFICATION" => some "UF_CODE_MOD"
  | "UF_B24_DEAL_GARAGE_DATE_UPDATED" => some "UF_CODE_DATE"
  | "UF_B24_DEAL_GARAGE_VEHICLE_REG_PLATE" => some "UF_CODE_PLATE"
  | _ => Option.none

/-- The unit test's row (`tests/test_sync_service.py:19`). -/
def testRow : GarageRow :=
  { id := 10, userId := 555, name := .str "Test car", comment := .str "note",
    year := .int 2024, vin := .str "VIN", frame := .str "F", mileage := .int 1000,
    manufacturerId := .int 1, manufacturer := .str "Brand", modelId := .int 2,
    model := .str "Model", modificationId := .int 3, modification := .str "Mod",
    dateUpdated := "2024-01-01", vehicleRegPlate := .str "123", rawJson := "" }

/-- The unit test's row with `mileage = 0` (the overwrite-protection
scenario of the specification). -/
def testRowMileage0 : GarageRow := { testRow with mileage := .int 0 }

/-- Overwrite disabled for `mileage`, enabled by default. -/
def cfgMileageOff : OverwriteCfg := { fields := [("mileage", false)], dflt := true }

/-- Overwrite enabled everywhere. -/
def cfgAllOn : OverwriteCfg := { fields := [], dflt := true }

/-- The last payload entry (in iteration order) carrying a given record id —
the entry whose upsert wins. -/
def lastCarFor : List (Option Int × Car) → Int → Option (Option Int × Car)
  | [], _ => Option.none
  | uc :: cs, i =>
      match lastCarFor cs i with
      | some x => some x
      | Option.none => if uc.2.id = i then some uc else Option.none

/-- A concrete ABCP car (id 1) for the store witness. -/
def wCarA : Car :=
  { id := 1, userId := some 7, name := some (.str "car A"), comment := Option.none,
    frame := Option.none, vehicleRegPlate := Option.none, mileage := some (.int 100),
    year := Option.none, vin := .str "VINA", manufacturerId := .int 1,
    manufacturer := .str "BrandA", modelId := .int 2, model := .str "ModelA",
    modificationId := .int 3, modification := .str "ModA",
    dateUpdated := "2024-01-01 10:00:00" }

/-- A second car with the same id 1 (re-ingestion of the same record). -/
def wCarB : Car :=
  { id := 1, userId := some 7, name := some (.str "car B"), comment := Option.none,
    frame := Option.none, vehicleRegPlate := Option.none, mileage := some (.int 200),
    year := Option.none, vin := .str "VINA", manufacturerId := .int 1,
    manufacturer := .str "BrandA", modelId := .int 2, model := .str "ModelA",
    modificationId := .int 3, modification := .str "ModA",
    dateUpdated := "2024-02-02 10:00:00" }

/-- A one-user payload ingesting id 1 twice. -/
def wPayload : List (String × Option (List Car)) := [("7", some [wCarA, wCarB])]

/-- A Bitrix24 client whose deal lookup finds nothing (and whose other calls
succeed trivially). -/
def wB24 : B24Client :=
  { find_deal_by_user := fun _ => .ok Option.none
    get_deal_fields := fun _ _ => .ok []
    update_deal_fields := fun _ _ => .ok true }

/-- An empty process environment. -/
def wEnv : String → Option String := fun _ => Option.none

/-- The single garage row of the no-deal scenario (customer 7). -/
def w8Row : GarageRow := blankRow 3 7 "2024-01-01 10:00:00"

/-! ## Theorems -/

/-- Claim C1: the claim states that `_build_update_fields` emits an entry for
every resolved target field identifier of every configured source attribute
(fan-out, e.g. both `userId` codes).  In fact the function passes each whole
*tuple* from `BITRIX_FIELD_ENV_MAP` to `os.getenv`, which raises
`TypeError: str expected, not tuple` on the very first attribute, for every
environment, overwrite configuration and row — no entry is ever emitted.  The
repository's own unit test (`tests/test_sync_service.py`) expects the
fan-out behaviour, so the code, not the claim, is at fault. -/
theorem C1_build_update_fields_raises (env : String → Option String) (cfg : OverwriteCfg)
    (row : GarageRow) :
    _build_update_fields env cfg row = .error "TypeError: str expected, not tuple" := rfl

/-- Claim C6: the claim states the overwrite policy of `_build_update_fields`
(skip empty/zero values when overwrite is disabled, emit them when enabled).
The function never reaches its overwrite check: it raises `TypeError` on the
first `BITRIX_FIELD_ENV_MAP` entry, here evaluated on the unit test's
environment and a `mileage = 0` row under both overwrite configurations. -/
theorem C6_overwrite_mapper_raises :
    _build_update_fields testEnv cfgMileageOff testRowMileage0 =
      .error "TypeError: str expected, not tuple"
  ∧ _build_update_fields testEnv cfgAllOn testRowMileage0 =
      .error "TypeError: str expected, not tuple" := ⟨rfl, rfl⟩

/-- Claim C3, counterexample: for a `boolean`-typed field the empty string
does not normalize to the empty (field-clearing) value — `_to_bool_y_n`
returns `"Y"` for any unrecognized string, including `""`. -/
theorem C3_boolean_empty_cex :
    _normalize_fields_for_update (fun _ => ⟨"boolean", PyVal.none, []⟩) "+03:00"
      [("UF_X", PyVal.str "")] = [("UF_X", PyVal.str "Y")]
  ∧ _normalize_fields_for_update (fun _ => ⟨"boolean", PyVal.none, []⟩) "+03:00"
      [("UF_X", PyVal.str "")] ≠ [("UF_X", PyVal.str "")] := by
  exact ⟨rfl, by decide⟩

/-- Claim C3 (amended): `None` normalizes to the empty value for every
declared type, and the empty string normalizes to the empty value for every
declared type except `boolean`, where it yields `"Y"`. -/
theorem C3_empty_input_normalization (m : UFMeta) (mult : PyVal)
    (lst : List (PyVal × String × String)) (k cfg : String) :
    _normalize_fields_for_update (fun _ => m) cfg [(k, PyVal.none)] = [(k, PyVal.str "")]
  ∧ _normalize_fields_for_update (fun _ => ⟨"date", mult, lst⟩) cfg [(k, PyVal.str "")] =
      [(k, PyVal.str "")]
  ∧ _normalize_fields_for_update (fun _ => ⟨"datetime", mult, lst⟩) cfg [(k, PyVal.str "")] =
      [(k, PyVal.str "")]
  ∧ _normalize_fields_for_update (fun _ => ⟨"integer", mult, lst⟩) cfg [(k, PyVal.str "")] =
      [(k, PyVal.str "")]
  ∧ _normalize_fields_for_update (fun _ => ⟨"double", mult, lst⟩) cfg [(k, PyVal.str "")] =
      [(k, PyVal.str "")]
  ∧ _normalize_fields_for_update (fun _ => ⟨"enumeration", mult, lst⟩) cfg [(k, PyVal.str "")] =
      [(k, PyVal.str "")]
  ∧ _normalize_fields_for_update (fun _ => ⟨"", mult, lst⟩) cfg [(k, PyVal.str "")] =
      [(k, PyVal.str "")]
  ∧ _normalize_fields_for_update (fun _ => ⟨"boolean", mult, lst⟩) cfg [(k, PyVal.str "")] =
      [(k, PyVal.str "Y")] :=
  ⟨rfl, rfl, rfl, rfl, rfl, rfl, rfl, rfl⟩

/-- Claim C4, counterexample: with an invalid configured offset (`"bogus"`),
string-shaped datetime inputs do not fall back to the built-in `+03:00` —
`_ensure_datetime_str` splices the invalid offset text verbatim into the
result. -/
theorem C4_invalid_offset_string_cex :
    _ensure_datetime_str "bogus" (PyVal.str "2024-06-15") "bogus" = "2024-06-15T00:00:00bogus"
  ∧ _ensure_datetime_str "bogus" (PyVal.str "2024-06-15 10:00:00") "bogus" =
      "2024-06-15T10:00:00bogus"
  ∧ _ensure_datetime_str "bogus" (PyVal.str "2024-06-15") "bogus" ≠
      "2024-06-15T00:00:00+03:00" := by
  refine ⟨rfl, rfl, ?_⟩
  decide

/-- A bare-date string matches none of the longer datetime shapes. -/
theorem dateOnly_shapes (s : String) (h : isDateOnlyShape s = true) :
    isDatetimeOffsetShape s = false ∧ isDatetimeSepShape s = false := by
  simp only [isDateOnlyShape, decide_eq_true_eq] at h
  constructor
  · simp [isDatetimeOffsetShape, h, chLit]
  · simp [isDatetimeSepShape, h, chSep]

/-- A `YYYY-MM-DD HH:MM:SS` string (no offset) does not match the
offset-carrying datetime shape. -/
theorem sepShape_not_offsetShape (s : String) (h : isDatetimeSepShape s = true) :
    isDatetimeOffsetShape s = false := by
  simp only [isDatetimeSepShape, decide_eq_true_eq] at h
  cases hcd : chDate s.data with
  | none => rw [hcd] at h; simp at h
  | some rest =>
      rw [hcd] at h
      cases rest with
      | nil => simp [chSep] at h
      | cons c r =>
          simp only [Option.some_bind, chSep] at h
          by_cases hc : c = ' ' ∨ c = 'T'
          · rw [if_pos hc] at h
            simp only [Option.some_bind] at h
            by_cases hT : c = 'T'
            · simp [isDatetimeOffsetShape, hcd, chLit, hT, h, chOffset]
            · simp [isDatetimeOffsetShape, hcd, chLit, hT]
          · rw [if_neg hc] at h; simp at h

/-- The empty string matches no datetime shape. -/
theorem empty_no_shapes :
    isDateOnlyShape "" = false ∧ isDatetimeSepShape "" = false := by
  constructor <;> decide

/-- Claim C4 (amended): when the configured offset does not match the
`±HH:MM` pattern, the `+03:00` fallback is used only for `datetime` and
`date` *objects*; for string inputs (`YYYY-MM-DD` and
`YYYY-MM-DD HH:MM:SS`) the invalid offset text is spliced into the result
verbatim.  No input shape raises. -/
theorem C4_invalid_offset_behaviour (off : String)
    (hbad : parseOffset? (pyStrip off) = Option.none) (hne : off ≠ "") :
    (∀ y mo d h mi s, _ensure_datetime_str off (.prim (.dt y mo d h mi s Option.none)) off
        = isoDateTime y mo d h mi s (some 180))
  ∧ (∀ y mo d, _ensure_datetime_str off (.prim (.date y mo d)) off
        = isoDateTime y mo d 0 0 0 (some 180))
  ∧ (∀ s, isDateOnlyShape (pyStrip s) = true →
        _ensure_datetime_str off (.str s) off = pyStrip s ++ "T00:00:00" ++ off)
  ∧ (∀ s, isDatetimeSepShape (pyStrip s) = true →
        _ensure_datetime_str off (.str s) off
          = pyTake (pyStrip s) 10 ++ "T" ++ pyDrop (pyStrip s) 11 ++ off) := by
  have htz : _tz_from_offset off (some off) = 180 := by
    simp [_tz_from_offset, hne, hbad]
  have hstr : ∀ s : String, s ≠ "" → PyVal.str s ≠ PyVal.none ∧ PyVal.str s ≠ PyVal.str "" := by
    intro s hs
    constructor
    · simp [PyVal.str, PyVal.none]
    · simpa [PyVal.str] using hs
  refine ⟨?_, ?_, ?_, ?_⟩
  · intro y mo d h mi s
    simp [_ensure_datetime_str, PyVal.str, PyVal.none, htz]
  · intro y mo d
    simp [_ensure_datetime_str, PyVal.str, PyVal.none, htz]
  · intro s hshape
    by_cases hs : s = ""
    · rw [hs] at hshape
      have : pyStrip "" = "" := by decide
      rw [this] at hshape
      exact absurd hshape (by simp [empty_no_shapes.1])
    · obtain ⟨hno, hne2⟩ := dateOnly_shapes (pyStrip s) hshape
      obtain ⟨h1, h2⟩ := hstr s hs
      simp [_ensure_datetime_str, PyVal.str, PyVal.none, h1, h2, hno, hne2, hshape,
        show s ≠ "" from hs]
  · intro s hshape
    by_cases hs : s = ""
    · rw [hs] at hshape
      have : pyStrip "" = "" := by decide
      rw [this] at hshape
      exact absurd hshape (by simp [empty_no_shapes.2])
    · have hno := sepShape_not_offsetShape (pyStrip s) hshape
      obtain ⟨h1, h2⟩ := hstr s hs
      simp [_ensure_datetime_str, PyVal.str, PyVal.none, h1, h2, hno, hshape,
        show s ≠ "" from hs]

/-- Witness for the amended C4 at the concrete invalid offset `"bogus"`. -/
theorem C4_invalid_offset_behaviour_witness :
    _ensure_datetime_str "bogus" (.prim (.dt 2024 6 15 10 0 0 Option.none)) "bogus"
      = isoDateTime 2024 6 15 10 0 0 (some 180)
  ∧ _ensure_datetime_str "bogus" (.str " 2024-06-15 ") "bogus"
      = pyStrip " 2024-06-15 " ++ "T00:00:00" ++ "bogus" :=
  ⟨(C4_invalid_offset_behaviour "bogus" (by decide) (by decide)).1 2024 6 15 10 0 0,
   (C4_invalid_offset_behaviour "bogus" (by decide) (by decide)).2.2.1 " 2024-06-15 " (by decide)⟩

section DictLemmas

variable {κ α : Type} [DecidableEq κ]

/-- The key list of the empty dict. -/
@[simp] theorem dictKeys_nil : dictKeys ([] : List (κ × α)) = [] := rfl

/-- The key list of a non-empty dict. -/
@[simp] theorem dictKeys_cons (hd : κ × α) (t : List (κ × α)) :
    dictKeys (hd :: t) = hd.1 :: dictKeys t := rfl

/-- Looking up the key just set yields the new value. -/
theorem dictGet_dictSet_self (d : List (κ × α)) (k : κ) (v : α) :
    dictGet (dictSet d k v) k = some v := by
  induction d with
  | nil => simp [dictSet, dictGet]
  | cons hd t ih =>
      obtain ⟨k0, v0⟩ := hd
      by_cases h : k0 = k
      · simp [dictSet, dictGet, h]
      · simp [dictSet, dictGet, h, ih]

/-- Setting one key leaves the others unchanged. -/
theorem dictGet_dictSet_ne (d : List (κ × α)) (k k' : κ) (v : α) (h : k' ≠ k) :
    dictGet (dictSet d k v) k' = dictGet d k' := by
  have h' : ¬k = k' := fun e => h e.symm
  induction d with
  | nil => simp [dictSet, dictGet, h']
  | cons hd t ih =>
      obtain ⟨k0, v0⟩ := hd
      by_cases h0 : k0 = k
      · subst h0
        simp [dictSet, dictGet, h']
      · simp [dictSet, dictGet, h0, ih]

/-- Setting an existing key keeps the key list. -/
theorem dictKeys_dictSet_mem (d : List (κ × α)) (k : κ) (v : α) (h : k ∈ dictKeys d) :
    dictKeys (dictSet d k v) = dictKeys d := by
  induction d with
  | nil => simp at h
  | cons hd t ih =>
      obtain ⟨k0, v0⟩ := hd
      by_cases h0 : k0 = k
      · simp [dictSet, h0]
      · have hm : k ∈ dictKeys t := by
          rcases List.mem_cons.mp (by simpa using h) with h1 | h1
          · exact absurd h1.symm h0
          · exact h1
        simp [dictSet, h0, ih hm]

/-- Setting a fresh key appends it to the key list. -/
theorem dictKeys_dictSet_not_mem (d : List (κ × α)) (k : κ) (v : α) (h : k ∉ dictKeys d) :
    dictKeys (dictSet d k v) = dictKeys d ++ [k] := by
  induction d with
  | nil => simp [dictSet]
  | cons hd t ih =>
      obtain ⟨k0, v0⟩ := hd
      have h0 : ¬k0 = k := fun e => h (by simp [e])
      have hm : k ∉ dictKeys t := fun e => h (by simp [e])
      simp [dictSet, h0, ih hm]

/-- Membership in the key list after a set. -/
theorem mem_dictKeys_dictSet (d : List (κ × α)) (k k' : κ) (v : α) :
    k' ∈ dictKeys (dictSet d k v) ↔ k' ∈ dictKeys d ∨ k' = k := by
  by_cases h : k ∈ dictKeys d
  · rw [dictKeys_dictSet_mem d k v h]
    constructor
    · exact Or.inl
    · rintro (h' | rfl)
      · exact h'
      · exact h
  · rw [dictKeys_dictSet_not_mem d k v h]
    simp

/-- A set preserves key-list distinctness. -/
theorem nodup_dictKeys_dictSet (d : List (κ × α)) (k : κ) (v : α)
    (h : (dictKeys d).Nodup) : (dictKeys (dictSet d k v)).Nodup := by
  by_cases hm : k ∈ dictKeys d
  · rw [dictKeys_dictSet_mem d k v hm]; exact h
  · rw [dictKeys_dictSet_not_mem d k v hm]
    simp [List.nodup_append, h, hm]

/-- A key outside the key list has no binding. -/
theorem dictGet_eq_none_of_not_mem (d : List (κ × α)) (k : κ) (h : k ∉ dictKeys d) :
    dictGet d k = Option.none := by
  induction d with
  | nil => rfl
  | cons hd t ih =>
      obtain ⟨k0, v0⟩ := hd
      have h0 : ¬k0 = k := fun e => h (by simp [e])
      have hm : k ∉ dictKeys t := fun e => h (by simp [e])
      simp [dictGet, h0, ih hm]

/-- Two dicts with the same key list (without duplicates) and the same
lookups are equal. -/
theorem dict_ext (d1 d2 : List (κ × α)) (hk : dictKeys d1 = dictKeys d2)
    (hg : ∀ k, dictGet d1 k = dictGet d2 k) (hn : (dictKeys d1).Nodup) : d1 = d2 := by
  induction d1 generalizing d2 with
  | nil =>
      cases d2 with
      | nil => rfl
      | cons hd t => simp at hk
  | cons hd t ih =>
      obtain ⟨k0, v0⟩ := hd
      cases d2 with
      | nil => simp at hk
      | cons hd2 t2 =>
          obtain ⟨k2, w⟩ := hd2
          simp only [dictKeys_cons, List.cons.injEq] at hk
          obtain ⟨hk0, hkt⟩ := hk
          subst hk0
          have hv : v0 = w := by
            have := hg k0
            simpa [dictGet] using this
          subst hv
          have hns := List.nodup_cons.mp (by simpa using hn)
          have hn0 : k0 ∉ dictKeys t := hns.1
          have hn2 : k0 ∉ dictKeys t2 := by rw [← hkt]; exact hn0
          have hgt : ∀ k, dictGet t k = dictGet t2 k := by
            intro k
            by_cases h : k = k0
            · subst h
              rw [dictGet_eq_none_of_not_mem t k hn0, dictGet_eq_none_of_not_mem t2 k hn2]
            · have h0 : ¬k0 = k := fun e => h e.symm
              have := hg k
              simpa [dictGet, h0] using this
          rw [ih t2 hkt hgt hns.2]

/-- Splitting distinctness of a dict's key list at its head. -/
theorem nodup_dictKeys_cons (k0 : κ) (v0 : α) (t : List (κ × α))
    (h : (dictKeys ((k0, v0) :: t)).Nodup) : k0 ∉ dictKeys t ∧ (dictKeys t).Nodup := by
  rw [dictKeys_cons] at h
  exact List.nodup_cons.mp h

end DictLemmas

/-- An agreeing candidate entry is not kept by the diff. -/
theorem diffKeep_false (current : List (String × PyVal)) (kv : String × PyVal)
    (h : _normalize ((dictGet current kv.1).getD PyVal.none) = _normalize kv.2) :
    diffKeep current kv = false := by
  simp [diffKeep, h]

/-- A differing candidate entry is kept by the diff. -/
theorem diffKeep_true (current : List (String × PyVal)) (kv : String × PyVal)
    (h : _normalize ((dictGet current kv.1).getD PyVal.none) ≠ _normalize kv.2) :
    diffKeep current kv = true := by
  simp [diffKeep, h]

/-- `_diff_fields` of a candidate map that agrees (after normalization) with
the current values is empty. -/
theorem diff_fields_agree_nil (current cand : List (String × PyVal))
    (h : ∀ kv ∈ cand, _normalize ((dictGet current kv.1).getD PyVal.none) = _normalize kv.2) :
    _diff_fields current cand = [] := by
  induction cand with
  | nil => rfl
  | cons hd tl ih =>
      have hh := diffKeep_false current hd (h hd (by simp))
      have ht : ∀ kv ∈ tl, _normalize ((dictGet current kv.1).getD PyVal.none) = _normalize kv.2 :=
        fun kv hm => h kv (by simp [hm])
      have htl := ih ht
      simp only [_diff_fields] at htl ⊢
      rw [List.filter_cons, hh]
      simpa using htl

/-- Claim C5: `_diff_fields` keeps exactly the candidate entries whose
string-normalized value (with `None` equal to `""`) differs from the
normalized current value under the same key: the lookup of every key in the
diff is the candidate's binding filtered by that comparison; a candidate that
agrees with the current values yields an empty diff; and changing a single
key of an agreeing candidate to a differing value yields a diff holding
exactly that key.  (Determinism is immediate: `_diff_fields` is a pure
function of its two arguments.) -/
theorem C5_diff_fields (current cand : List (String × PyVal)) :
    ((dictKeys cand).Nodup → ∀ k,
       dictGet (_diff_fields current cand) k
         = (dictGet cand k).bind (fun v =>
             if _normalize ((dictGet current k).getD PyVal.none) = _normalize v
             then Option.none else some v))
  ∧ ((∀ kv ∈ cand, _normalize ((dictGet current kv.1).getD PyVal.none) = _normalize kv.2) →
       _diff_fields current cand = [])
  ∧ (∀ k v', (∀ kv ∈ cand, _normalize ((dictGet current kv.1).getD PyVal.none) = _normalize kv.2) →
       _normalize ((dictGet current k).getD PyVal.none) ≠ _normalize v' →
       _diff_fields current (dictSet cand k v') = [(k, v')]) := by
  refine ⟨?_, diff_fields_agree_nil current cand, ?_⟩
  · intro hnd k
    induction cand with
    | nil => rfl
    | cons hd tl ih =>
        obtain ⟨k0, v0⟩ := hd
        obtain ⟨hnd0, hndt⟩ := nodup_dictKeys_cons k0 v0 tl hnd
        have ihs := ih hndt
        by_cases hk : k0 = k
        · subst hk
          by_cases hdiff : _normalize ((dictGet current k0).getD PyVal.none) = _normalize v0
          · have hfil : dictGet (_diff_fields current tl) k0 = Option.none := by
              apply dictGet_eq_none_of_not_mem
              intro hmem
              apply hnd0
              have hsub : dictKeys (_diff_fields current tl) ⊆ dictKeys tl := by
                simp only [_diff_fields, dictKeys]
                intro x hx
                obtain ⟨kv, hkv, rfl⟩ := List.mem_map.mp hx
                exact List.mem_map.mpr ⟨kv, (List.mem_filter.mp hkv).1, rfl⟩
              exact hsub hmem
            rw [show _diff_fields current ((k0, v0) :: tl)
                  = List.filter (diffKeep current) ((k0, v0) :: tl) from rfl,
              List.filter_cons, diffKeep_false current (k0, v0) hdiff]
            simp only [_diff_fields] at hfil
            simp [dictGet, hfil, hdiff]
          · rw [show _diff_fields current ((k0, v0) :: tl)
                  = List.filter (diffKeep current) ((k0, v0) :: tl) from rfl,
              List.filter_cons, diffKeep_true current (k0, v0) hdiff]
            simp [dictGet, hdiff]
        · have hstep : dictGet ((k0, v0) :: tl) k = dictGet tl k := by
            simp [dictGet, hk]
          rw [show _diff_fields current ((k0, v0) :: tl)
                = List.filter (diffKeep current) ((k0, v0) :: tl) from rfl,
            List.filter_cons, hstep]
          by_cases hdiff : _normalize ((dictGet current k0).getD PyVal.none) = _normalize v0
          · rw [diffKeep_false current (k0, v0) hdiff]
            simpa [_diff_fields] using ihs
          · rw [diffKeep_true current (k0, v0) hdiff]
            simp only [cond_true]
            rw [show List.filter (diffKeep current) tl = _diff_fields current tl from rfl]
            simp [dictGet, hk, ihs]
  · intro k v' hagree hdiff
    induction cand with
    | nil =>
        simp only [dictSet, _diff_fields]
        rw [List.filter_cons, diffKeep_true current (k, v') hdiff]
        rfl
    | cons hd tl ih =>
        obtain ⟨k0, v0⟩ := hd
        have hh := diffKeep_false current (k0, v0) (hagree (k0, v0) (by simp))
        have ht : ∀ kv ∈ tl,
            _normalize ((dictGet current kv.1).getD PyVal.none) = _normalize kv.2 :=
          fun kv hm => hagree kv (by simp [hm])
        by_cases hk : k0 = k
        · subst hk
          have htl : _diff_fields current tl = [] := diff_fields_agree_nil current tl ht
          have hkeep : diffKeep current (k0, v') = true := diffKeep_true current (k0, v') hdiff
          have hset : dictSet ((k0, v0) :: tl) k0 v' = (k0, v') :: tl := by
            simp [dictSet]
          rw [hset]
          simp only [_diff_fields]
          rw [List.filter_cons, hkeep]
          simp only [_diff_fields] at htl
          simp [htl]
        · simp only [dictSet, if_neg hk, _diff_fields]
          rw [List.filter_cons, hh]
          simpa [_diff_fields] using ih ht

/-- Witness for C5 at concrete maps: current `{A: "x"}`, candidate `{A: "x"}`
with the key `B` changed to `"y"`. -/
theorem C5_diff_fields_witness :
    _diff_fields [("A", PyVal.str "x")]
      (dictSet [("A", PyVal.str "x")] "B" (PyVal.str "y")) = [("B", PyVal.str "y")] :=
  (C5_diff_fields [("A", PyVal.str "x")] [("A", PyVal.str "x")]).2.2 "B" (PyVal.str "y")
    (by decide) (by decide)

/-- Propositional form of the lexicographic `<` on datetimes. -/
theorem dtLt_iff (a b : PyDateTime) : dtLt a b = true ↔
    (a.year < b.year ∨ (a.year = b.year ∧ (a.month < b.month ∨ (a.month = b.month ∧
      (a.day < b.day ∨ (a.day = b.day ∧ (a.hour < b.hour ∨ (a.hour = b.hour ∧
      (a.minute < b.minute ∨ (a.minute = b.minute ∧ a.second < b.second)))))))))) := by
  obtain ⟨y1, m1, d1, h1, mi1, s1⟩ := a
  obtain ⟨y2, m2, d2, h2, mi2, s2⟩ := b
  simp only [dtLt]
  split_ifs <;> simp_all

/-- Propositional form of the lexicographic `<=` on datetimes. -/
theorem dtLe_iff (a b : PyDateTime) : dtLe a b = true ↔
    (a.year < b.year ∨ (a.year = b.year ∧ (a.month < b.month ∨ (a.month = b.month ∧
      (a.day < b.day ∨ (a.day = b.day ∧ (a.hour < b.hour ∨ (a.hour = b.hour ∧
      (a.minute < b.minute ∨ (a.minute = b.minute ∧ a.second ≤ b.second)))))))))) := by
  obtain ⟨y1, m1, d1, h1, mi1, s1⟩ := a
  obtain ⟨y2, m2, d2, h2, mi2, s2⟩ := b
  simp only [dtLe, Bool.or_eq_true, dtLt_iff, decide_eq_true_eq, PyDateTime.mk.injEq]
  omega

/-- `<=` on datetimes is reflexive. -/
theorem dtLe_refl (a : PyDateTime) : dtLe a a = true := by
  simp [dtLe]

/-- `<=` on datetimes bounds the year. -/
theorem year_le_of_dtLe (a b : PyDateTime) (h : dtLe a b = true) : a.year ≤ b.year := by
  rw [dtLe_iff] at h
  omega

/-- A strictly smaller year makes a datetime strictly smaller. -/
theorem dtLt_of_year_lt (a b : PyDateTime) (h : a.year < b.year) : dtLt a b = true := by
  rw [dtLt_iff]
  omega

/-- `<` implies `<=` on datetimes. -/
theorem dtLe_of_dtLt (a b : PyDateTime) (h : dtLt a b = true) : dtLe a b = true := by
  simp [dtLe, h]

/-- `<=` on datetimes is transitive. -/
theorem dtLe_trans (a b c : PyDateTime) (h1 : dtLe a b = true) (h2 : dtLe b c = true) :
    dtLe a c = true := by
  rw [dtLe_iff] at h1 h2 ⊢
  omega

/-- Closed form of the `slice_by_years` loop: starting from any `cur` that is
at or after `Jan-1 00:00:01` of its own year (which the entry point
establishes), and with enough fuel, the loop produces exactly the slices the
specification describes. -/
theorem sliceLoop_spec : ∀ (fuel : Nat) (cur e : PyDateTime),
    e.year + 1 - cur.year ≤ fuel →
    dtLe (jan1 cur.year) cur = true →
    sliceLoop fuel cur e = (List.range (specSliceCount cur e)).map
      (fun i => (if i = 0 then cur else jan1 (cur.year + i), dtMin (dec31 (cur.year + i)) e)) := by
  intro fuel
  induction fuel with
  | zero =>
      intro cur e hf _hinv
      have hle : dtLe cur e = false := by
        cases hc : dtLe cur e
        · rfl
        · have := year_le_of_dtLe cur e hc
          omega
      simp [sliceLoop, specSliceCount, hle]
  | succ fuel ih =>
      intro cur e hf hinv
      cases hle : dtLe cur e with
      | false => simp [sliceLoop, specSliceCount, hle]
      | true =>
          have hy : cur.year ≤ e.year := year_le_of_dtLe cur e hle
          have hyear1 : (jan1 (cur.year + 1)).year = cur.year + 1 := rfl
          have hinv' : dtLe (jan1 (jan1 (cur.year + 1)).year) (jan1 (cur.year + 1)) = true := by
            rw [hyear1]; exact dtLe_refl _
          have hf' : e.year + 1 - (jan1 (cur.year + 1)).year ≤ fuel := by
            rw [hyear1]; omega
          have ihe := ih (jan1 (cur.year + 1)) e hf' hinv'
          have hcount : specSliceCount cur e = specSliceCount (jan1 (cur.year + 1)) e + 1 := by
            cases h2 : dtLe (jan1 (cur.year + 1)) e with
            | true =>
                have hy2 : cur.year + 1 ≤ e.year := by
                  have := year_le_of_dtLe _ e h2
                  rw [hyear1] at this
                  exact this
                simp only [specSliceCount, hle, h2, hyear1, if_true]
                cases hKe : dtLe (jan1 e.year) e <;> simp [hKe] <;> omega
            | false =>
                by_cases hcase : cur.year = e.year
                · have hKe : dtLe (jan1 e.year) e = true := by
                    rw [← hcase]
                    exact dtLe_trans _ cur e hinv hle
                  simp only [specSliceCount, hle, h2, hyear1, hKe, if_true]
                  simp
                  omega
                · have hy2 : cur.year + 1 ≤ e.year := by omega
                  have hy3 : cur.year + 1 = e.year := by
                    by_contra hne
                    have hlt : dtLt (jan1 (cur.year + 1)) e = true := by
                      apply dtLt_of_year_lt
                      rw [hyear1]
                      omega
                    rw [dtLe_of_dtLt _ _ hlt] at h2
                    cases h2
                  have hKe : dtLe (jan1 e.year) e = false := by
                    rw [← hy3]; exact h2
                  simp only [specSliceCount, hle, h2, hyear1, hKe, if_true]
                  simp
                  omega
          rw [show sliceLoop (fuel + 1) cur e
                = if dtLe cur e then
                    (cur, dtMin (dec31 cur.year) e) :: sliceLoop fuel (jan1 (cur.year + 1)) e
                  else [] from rfl, hle, if_pos rfl, ihe, hcount, List.range_succ_eq_map,
            List.map_cons, List.map_map]
          have hhead : ((cur : PyDateTime), dtMin (dec31 cur.year) e)
              = (if (0 : Nat) = 0 then cur else jan1 (cur.year + 0),
                 dtMin (dec31 (cur.year + 0)) e) := by
            simp
          have htail : List.map (fun i =>
                (if i = 0 then jan1 (cur.year + 1) else jan1 ((jan1 (cur.year + 1)).year + i),
                 dtMin (dec31 ((jan1 (cur.year + 1)).year + i)) e))
                (List.range (specSliceCount (jan1 (cur.year + 1)) e))
              = List.map ((fun i =>
                  (if i = 0 then cur else jan1 (cur.year + i), dtMin (dec31 (cur.year + i)) e))
                    ∘ Nat.succ)
                (List.range (specSliceCount (jan1 (cur.year + 1)) e)) := by
            apply List.map_congr_left
            intro a _
            simp only [Function.comp_apply, hyear1, Nat.succ_eq_add_one]
            cases a with
            | zero => simp
            | succ j =>
                have h1 : cur.year + 1 + (j + 1) = cur.year + (j + 1 + 1) := by omega
                simp [h1]
          exact congr (congrArg List.cons hhead) htail

/-- Claim C7: `slice_by_years` splits `[start, end]` exactly as specified —
for all inputs it equals the specification's slice list (first slice from
`max(start, Jan-1 00:00:01)`, later slices from `Jan-1 00:00:01` of each next
year, each slice ending at `Dec-31 23:59:59` of its year or at `end`,
whichever is earlier) — and on the concrete instance
`(2024-06-15, 2025-03-10)` it yields exactly the two specified slices. -/
theorem C7_slice_by_years :
    (∀ s e : PyDateTime, slice_by_years s e = specSlices s e)
  ∧ slice_by_years ⟨2024, 6, 15, 0, 0, 0⟩ ⟨2025, 3, 10, 0, 0, 0⟩ =
      [(⟨2024, 6, 15, 0, 0, 0⟩, ⟨2024, 12, 31, 23, 59, 59⟩),
       (⟨2025, 1, 1, 0, 0, 1⟩, ⟨2025, 3, 10, 0, 0, 0⟩)] := by
  constructor
  · intro s e
    have hcur : dtMax (jan1 s.year) s = if dtLt (jan1 s.year) s then s else jan1 s.year := rfl
    have hinv : dtLe (jan1 (if dtLt (jan1 s.year) s then s else jan1 s.year).year)
        (if dtLt (jan1 s.year) s then s else jan1 s.year) = true := by
      cases hc : dtLt (jan1 s.year) s with
      | true => simpa [hc] using dtLe_of_dtLt _ _ hc
      | false => simpa [hc, jan1] using dtLe_refl (jan1 s.year)
    rw [slice_by_years, specSlices, hcur]
    exact sliceLoop_spec _ _ e (by omega) hinv
  · decide

/-- Inserting a row into a (sorted) list places it before every row of the
same user already present, so the per-user projection gains the row at the
front. -/
theorem filter_user_insertByUserId (u : Int) (x : GarageRow) (l : List GarageRow) :
    (insertByUserId x l).filter (fun g => decide (g.userId = u))
      = if x.userId = u then x :: l.filter (fun g => decide (g.userId = u))
        else l.filter (fun g => decide (g.userId = u)) := by
  induction l with
  | nil =>
      by_cases hx : x.userId = u <;> simp [insertByUserId, List.filter_cons, hx]
  | cons h t ih =>
      rw [insertByUserId]
      by_cases hlt : h.userId < x.userId
      · rw [if_pos hlt]
        by_cases hx : x.userId = u
        · have hhu : ¬h.userId = u := by omega
          simp [List.filter_cons, hhu, ih, hx]
        · simp [List.filter_cons, ih, hx]
      · rw [if_neg hlt]
        by_cases hx : x.userId = u <;> simp [List.filter_cons, hx]

/-- The stable sort by `userId` does not change the per-user projection. -/
theorem filter_user_sortByUserId (u : Int) (l : List GarageRow) :
    (sortByUserId l).filter (fun g => decide (g.userId = u))
      = l.filter (fun g => decide (g.userId = u)) := by
  induction l with
  | nil => rfl
  | cons h t ih =>
      rw [sortByUserId, filter_user_insertByUserId, List.filter_cons]
      by_cases hx : h.userId = u <;> simp [hx, ih]

/-- Claim C2, counterexample: two rows of customer 5 with the same
`dateUpdated` both satisfy the `MAX(datetime(dateUpdated))` join, so the
selection returns two records for that customer, not exactly one. -/
theorem C2_tie_cex :
    ((_select_latest_rows_per_user [tieRowA, tieRowB] Option.none).filter
        (fun g => decide (g.userId = 5))).length = 2 := by
  decide

/-- Claim C2 (amended): with no customer filter, the selection returns, per
customer, exactly the records whose parsed `dateUpdated` equals that
customer's maximum parsed `dateUpdated` (records with an unparsable timestamp
are dropped; a unique maximum therefore gives exactly one record); in
particular, for a customer with records at timestamps T1 < T2 < T3 it
returns exactly the record at T3. -/
theorem C2_latest_per_user :
    (∀ (rows : List GarageRow) (u : Int),
        (_select_latest_rows_per_user rows Option.none).filter (fun g => decide (g.userId = u))
          = rows.filter (fun g => decide (g.userId = u) && latestQualifies rows g))
  ∧ _select_latest_rows_per_user [rowT1, rowT2, rowT3] Option.none = [rowT3] := by
  constructor
  · intro rows u
    show (sortByUserId (rows.filter (latestQualifies rows))).filter
        (fun g => decide (g.userId = u)) = _
    rw [filter_user_sortByUserId, List.filter_filter]
  · decide

/-- Upserting a batch never loses existing record ids. -/
theorem mem_keys_foldl_upsertCar (cs : List (Option Int × Car)) :
    ∀ (t : GarageTable) (i : Int), i ∈ dictKeys t → i ∈ dictKeys (cs.foldl upsertCar t) := by
  induction cs with
  | nil => intro t i h; exact h
  | cons uc cs ih =>
      intro t i h
      exact ih (upsertCar t uc) i ((mem_dictKeys_dictSet t uc.2.id i _).mpr (Or.inl h))

/-- After upserting a batch, every batch id is a key of the table. -/
theorem ids_mem_keys_foldl_upsertCar (cs : List (Option Int × Car)) :
    ∀ (t : GarageTable) (uc : Option Int × Car), uc ∈ cs →
      uc.2.id ∈ dictKeys (cs.foldl upsertCar t) := by
  induction cs with
  | nil => intro t uc h; cases h
  | cons uc0 cs ih =>
      intro t uc h
      rcases List.mem_cons.mp h with rfl | h
      · exact mem_keys_foldl_upsertCar cs (upsertCar t uc) uc.2.id
          ((mem_dictKeys_dictSet t uc.2.id uc.2.id _).mpr (Or.inr rfl))
      · exact ih (upsertCar t uc0) uc h

/-- Upserting a batch whose ids are all already present keeps the key list. -/
theorem keys_foldl_upsertCar_stable (cs : List (Option Int × Car)) :
    ∀ (t : GarageTable), (∀ uc ∈ cs, uc.2.id ∈ dictKeys t) →
      dictKeys (cs.foldl upsertCar t) = dictKeys t := by
  induction cs with
  | nil => intro t _; rfl
  | cons uc cs ih =>
      intro t h
      have h0 : uc.2.id ∈ dictKeys t := h uc (by simp)
      have hk : dictKeys (upsertCar t uc) = dictKeys t :=
        dictKeys_dictSet_mem t uc.2.id _ h0
      have ht : ∀ x ∈ cs, x.2.id ∈ dictKeys (upsertCar t uc) := by
        intro x hx
        rw [hk]
        exact h x (by simp [hx])
      rw [List.foldl_cons, ih (upsertCar t uc) ht, hk]

/-- Upserting a batch preserves distinctness of the id column. -/
theorem nodup_keys_foldl_upsertCar (cs : List (Option Int × Car)) :
    ∀ (t : GarageTable), (dictKeys t).Nodup → (dictKeys (cs.foldl upsertCar t)).Nodup := by
  induction cs with
  | nil => intro t h; exact h
  | cons uc cs ih =>
      intro t h
      exact ih (upsertCar t uc) (nodup_dictKeys_dictSet t uc.2.id _ h)

/-- The table lookup after upserting a batch: the last batch entry with the
id wins, otherwise the previous binding survives. -/
theorem dictGet_foldl_upsertCar (cs : List (Option Int × Car)) :
    ∀ (t : GarageTable) (i : Int),
      dictGet (cs.foldl upsertCar t) i =
        match lastCarFor cs i with
        | some uc => some (prepareRow uc.1 uc.2)
        | Option.none => dictGet t i := by
  induction cs with
  | nil => intro t i; rfl
  | cons uc cs ih =>
      intro t i
      rw [List.foldl_cons, ih (upsertCar t uc) i]
      cases hcs : lastCarFor cs i with
      | some x => simp [lastCarFor, hcs]
      | none =>
          by_cases hid : uc.2.id = i
          · subst hid
            simp [lastCarFor, hcs, upsertCar, dictGet_dictSet_self]
          · simp [lastCarFor, hcs, upsertCar, hid,
              dictGet_dictSet_ne t uc.2.id i _ (fun e => hid e.symm)]

/-- Claim C9: `store_payload` is idempotent — storing the same payload twice
leaves the garage table exactly as storing it once (same rows and returned
count); the id column stays duplicate-free; and every lookup is determined by
the last payload entry with that id (a re-ingested id's row is fully
overwritten), other rows being untouched. -/
theorem C9_store_payload_idempotent (t : GarageTable) (p : List (String × Option (List Car)))
    (hnd : (dictKeys t).Nodup) :
    store_payload (store_payload t p).1 p = store_payload t p
  ∧ (dictKeys (store_payload t p).1).Nodup
  ∧ (∀ i, dictGet (store_payload t p).1 i =
      match lastCarFor (flattenPayload p) i with
      | some uc => some (prepareRow uc.1 uc.2)
      | Option.none => dictGet t i) := by
  have hfold : (store_payload t p).1 = (flattenPayload p).foldl upsertCar t := rfl
  have hnod : (dictKeys (store_payload t p).1).Nodup := by
    rw [hfold]; exact nodup_keys_foldl_upsertCar (flattenPayload p) t hnd
  have hget : ∀ i, dictGet ((store_payload t p).1) i =
      match lastCarFor (flattenPayload p) i with
      | some uc => some (prepareRow uc.1 uc.2)
      | Option.none => dictGet t i := by
    intro i
    rw [hfold]
    exact dictGet_foldl_upsertCar (flattenPayload p) t i
  refine ⟨?_, hnod, hget⟩
  have hids : ∀ uc ∈ flattenPayload p, uc.2.id ∈ dictKeys ((store_payload t p).1) := by
    intro uc h
    rw [hfold]
    exact ids_mem_keys_foldl_upsertCar (flattenPayload p) t uc h
  have hkeys : dictKeys ((flattenPayload p).foldl upsertCar ((store_payload t p).1))
      = dictKeys ((store_payload t p).1) :=
    keys_foldl_upsertCar_stable (flattenPayload p) _ hids
  have hfst : (store_payload (store_payload t p).1 p).1 = (store_payload t p).1 := by
    apply dict_ext
    · exact hkeys
    · intro i
      rw [show (store_payload (store_payload t p).1 p).1
            = (flattenPayload p).foldl upsertCar ((store_payload t p).1) from rfl,
        dictGet_foldl_upsertCar (flattenPayload p) _ i, hget i]
      cases hcs : lastCarFor (flattenPayload p) i <;> simp
    · rw [show (store_payload (store_payload t p).1 p).1
            = (flattenPayload p).foldl upsertCar ((store_payload t p).1) from rfl, hkeys]
      exact hnod
  exact Prod.ext_iff.mpr ⟨hfst, rfl⟩

/-- Witness for C9: ingesting a payload with two versions of record 1 into an
empty table, twice. -/
theorem C9_store_payload_idempotent_witness :
    store_payload (store_payload [] wPayload).1 wPayload = store_payload [] wPayload
  ∧ (dictKeys (store_payload ([] : GarageTable) wPayload).1).Nodup
  ∧ (∀ i, dictGet (store_payload ([] : GarageTable) wPayload).1 i =
      match lastCarFor (flattenPayload wPayload) i with
      | some uc => some (prepareRow uc.1 uc.2)
      | Option.none => dictGet ([] : GarageTable) i) :=
  C9_store_payload_idempotent [] wPayload (by simp)

/-- `save_sync_result` appends exactly one audit row. -/
theorem save_audit_length (now : String) (db : SyncDb) (userId : Int) (dealId : Option Int)
    (sourceGarageId : Option Int) (sourceDateUpdated : Option String) (result : String)
    (updatedFieldCodes : Option (List String)) (error : Option String) :
    (save_sync_result now db userId dealId sourceGarageId sourceDateUpdated result
        updatedFieldCodes error).audit.length = db.audit.length + 1 := by
  simp [save_sync_result]

/-- Every processed row of the `sync_all` loop adds exactly one to one of the
three counters and exactly one audit row; a normal return therefore accounts
for every row. -/
theorem syncLoop_counts (b24 : B24Client) (env : String → Option String) (cfg : OverwriteCfg)
    (now : String) :
    ∀ (rows : List GarageRow) (db : SyncDb) (ok sk er u s e : Nat) (db2 : SyncDb),
      syncLoop b24 env cfg now rows db ok sk er = .ok ((u, s, e), db2) →
      u + s + e = ok + sk + er + rows.length ∧
        db2.audit.length = db.audit.length + rows.length := by
  intro rows
  induction rows with
  | nil =>
      intro db ok sk er u s e db2 h
      simp only [syncLoop, Except.ok.injEq, Prod.mk.injEq] at h
      obtain ⟨⟨hu, hs, he⟩, hdb⟩ := h
      subst hu; subst hs; subst he; subst hdb
      simp
  | cons row rest ih =>
      intro db ok sk er u s e db2 h
      simp only [syncLoop] at h
      split at h
      · obtain ⟨h1, h2⟩ := ih _ _ _ _ _ _ _ _ h
        rw [save_audit_length] at h2
        exact ⟨by simp only [List.length_cons]; omega, by simp only [List.length_cons]; omega⟩
      · split at h
        · exact absurd h (by simp)
        · obtain ⟨h1, h2⟩ := ih _ _ _ _ _ _ _ _ h
          rw [save_audit_length] at h2
          exact ⟨by simp only [List.length_cons]; omega, by simp only [List.length_cons]; omega⟩
        · split at h
          · exact absurd h (by simp)
          · split at h
            · obtain ⟨h1, h2⟩ := ih _ _ _ _ _ _ _ _ h
              rw [save_audit_length] at h2
              exact ⟨by simp only [List.length_cons]; omega,
                by simp only [List.length_cons]; omega⟩
            · split at h
              · obtain ⟨h1, h2⟩ := ih _ _ _ _ _ _ _ _ h
                rw [save_audit_length] at h2
                exact ⟨by simp only [List.length_cons]; omega,
                  by simp only [List.length_cons]; omega⟩
              · split at h
                · obtain ⟨h1, h2⟩ := ih _ _ _ _ _ _ _ _ h
                  rw [save_audit_length] at h2
                  exact ⟨by simp only [List.length_cons]; omega,
                    by simp only [List.length_cons]; omega⟩
                · obtain ⟨h1, h2⟩ := ih _ _ _ _ _ _ _ _ h
                  rw [save_audit_length] at h2
                  exact ⟨by simp only [List.length_cons]; omega,
                    by simp only [List.length_cons]; omega⟩

/-- Claim C10: whenever `sync_all` returns normally, each selected row
contributed to exactly one of the three counters — their sum equals the
number of rows returned by the latest-per-customer selection — and exactly
one audit row was recorded per processed row. -/
theorem C10_sync_all_counts (b24 : B24Client) (env : String → Option String)
    (cfg : OverwriteCfg) (now : String) (garage : List GarageRow) (userId : Option Int)
    (db : SyncDb) (u s e : Nat) (db2 : SyncDb)
    (h : sync_all b24 env cfg now garage userId db = .ok ((u, s, e), db2)) :
    u + s + e = (_select_latest_rows_per_user garage userId).length
  ∧ db2.audit.length = db.audit.length + (_select_latest_rows_per_user garage userId).length := by
  have h' : syncLoop b24 env cfg now (_select_latest_rows_per_user garage userId) db 0 0 0
      = .ok ((u, s, e), db2) := h
  have := syncLoop_counts b24 env cfg now (_select_latest_rows_per_user garage userId)
    db 0 0 0 u s e db2 h'
  omega

/-- Witness for C10: an empty garage table gives a normal return with
`(0, 0, 0)` and no audit rows. -/
theorem C10_sync_all_counts_witness :
    0 + 0 + 0 = (_select_latest_rows_per_user [] Option.none).length
  ∧ (⟨[], []⟩ : SyncDb).audit.length
      = (⟨[], []⟩ : SyncDb).audit.length
        + (_select_latest_rows_per_user [] Option.none).length :=
  C10_sync_all_counts wB24 wEnv cfgAllOn "2024-06-01 00:00:00" [] Option.none
    ⟨[], []⟩ 0 0 0 ⟨[], []⟩ rfl

/-- Claim C8: when the selection yields one row for a real customer and the
deal lookup finds no deal, `sync_all` returns `(updated, skipped, errors) =
(0, 1, 0)` and records a `skipped` outcome with error text `"deal not found"`
both in the customer's `sync_status` row and in a new `sync_audit` row. -/
theorem C8_no_deal_skipped (b24 : B24Client) (env : String → Option String)
    (cfg : OverwriteCfg) (now : String) (garage : List GarageRow) (userId : Option Int)
    (db : SyncDb) (r : GarageRow) (u : Int)
    (hsel : _select_latest_rows_per_user garage userId = [r])
    (hu : r.userId = u) (hu0 : u ≠ 0)
    (hfind : b24.find_deal_by_user u = .ok Option.none) :
    sync_all b24 env cfg now garage userId db = .ok ((0, 1, 0),
      { status := dictSet db.status u
          { dealId := Option.none, sourceGarageId := some r.id,
            sourceDateUpdated := some r.dateUpdated, lastSyncedAt := now,
            lastResult := "skipped", fieldsUpdatedCount := 0, fieldsUpdatedJson := "[]",
            lastError := some "deal not found" },
        audit := db.audit ++
          [{ userId := u, dealId := Option.none, sourceGarageId := some r.id,
             sourceDateUpdated := some r.dateUpdated, result := "skipped",
             fieldsUpdatedCount := 0, fieldsUpdatedJson := "[]",
             error := some "deal not found", createdAt := now }] }) := by
  subst hu
  show syncLoop b24 env cfg now (_select_latest_rows_per_user garage userId) db 0 0 0 = _
  rw [hsel]
  simp only [syncLoop, hu0, if_false, hfind]
  rfl

/-- Witness for C8: one customer-7 row, a client that finds no deal. -/
theorem C8_no_deal_skipped_witness :
    sync_all wB24 wEnv cfgAllOn "2024-06-01 00:00:00" [w8Row] Option.none ⟨[], []⟩
      = .ok ((0, 1, 0),
        { status := dictSet ([] : List (Int × StatusRow)) 7
            { dealId := Option.none, sourceGarageId := some w8Row.id,
              sourceDateUpdated := some w8Row.dateUpdated,
              lastSyncedAt := "2024-06-01 00:00:00", lastResult := "skipped",
              fieldsUpdatedCount := 0, fieldsUpdatedJson := "[]",
              lastError := some "deal not found" },
          audit := [] ++
            [{ userId := 7, dealId := Option.none, sourceGarageId := some w8Row.id,
               sourceDateUpdated := some w8Row.dateUpdated, result := "skipped",
               fieldsUpdatedCount := 0, fieldsUpdatedJson := "[]",
               error := some "deal not found", createdAt := "2024-06-01 00:00:00" }] }) :=
  C8_no_deal_skipped wB24 wEnv cfgAllOn "2024-06-01 00:00:00" [w8Row] Option.none
    ⟨[], []⟩ w8Row 7 (by decide) rfl (by decide) rfl

end AbcpB24
